import Mathlib

/-!
Shallow embedding of `src/run-gen-fractal-julia.py` (a Julia-set escape-time
fractal renderer) and verification of the specification claims about it.

Python floats are modelled by exact rationals (`ℚ`); Python ints by `ℕ`;
the numpy `uint8` image buffer by `List (List (ℕ × ℕ × ℕ))` with channel
values reduced mod 256; Python runtime exceptions (NameError on the unbound
loop variable `color`, TypeError on subscripting `None`, IndexError on
out-of-bounds buffer access) by `Except String`.
-/

set_option allowUnsafeReducibility true

attribute [semireducible] Rat.add Rat.mul Rat.sub Rat.inv

/-- Python `abs` on a rational value. -/
def qabs (q : ℚ) : ℚ := if q < 0 then -q else q

/-- A complex number as a pair of rationals, mirroring Python `complex`. -/
structure Cplx where
  re : ℚ
  im : ℚ
deriving DecidableEq, Repr

/-- Complex multiplication. -/
def cmul (a b : Cplx) : Cplx :=
  ⟨a.re * b.re - a.im * b.im, a.re * b.im + a.im * b.re⟩

/-- Complex addition. -/
def cadd (a b : Cplx) : Cplx :=
  ⟨a.re + b.re, a.im + b.im⟩

namespace FunctionList

/-- `FunctionList.func_z2pc` (lines 19-21): `z * z + c`. -/
def func_z2pc (z c : Cplx) : Cplx := cadd (cmul z z) c

/-- `FunctionList.func_z3pc` (lines 23-25): `z * z * z + c`. -/
def func_z3pc (z c : Cplx) : Cplx := cadd (cmul (cmul z z) z) c

end FunctionList

/-- Python float modulo `a % b` (sign of the divisor): `a - b * floor (a / b)`. -/
def pymodQ (a b : ℚ) : ℚ := a - b * ((a / b).floor : ℚ)

/-- Python `int(q)`: truncation toward zero. -/
def pyTrunc (q : ℚ) : ℤ := if q < 0 then -((-q).floor) else q.floor

/-- Quantization of a normalized channel into the uint8 buffer:
`int(channel * 255)` stored into a `np.uint8` cell (values here are always
in `[0, 255]`, the `% 256` reflects the 8-bit cell width). -/
def toByte (q : ℚ) : ℕ := (pyTrunc (q * 255)).toNat % 256

/-- The renderer configuration: the fields stored by `FractalJulia.__init__`
(lines 57-76). The iteration function is carried as a Lean function, as the
Python object carries a callable. -/
structure FractalJulia where
  image_width : ℕ
  image_height : ℕ
  minx : ℚ
  miny : ℚ
  maxx : ℚ
  maxy : ℚ
  iterations : ℕ
  constant : Cplx
  function : Cplx → Cplx → Cplx
  zmax : ℚ
  scheme : ℕ

/-- `FractalJulia.__generate_color_scheme1__` (lines 31-43): HSV-style hue
ramp with saturation 1 and value 1; `h = value % 360`,
`X = 1 - abs((h / 60) % 2 - 1)`, then a six-sector case split. -/
def FractalJulia.generate_color_scheme1 (_self : FractalJulia) (value : ℕ) : List ℚ :=
  let h : ℕ := value % 360
  let X : ℚ := 1 - qabs (pymodQ ((h : ℚ) / 60) 2 - 1)
  if 0 ≤ h ∧ h < 60 then [1, X, 0]
  else if 60 ≤ h ∧ h < 120 then [X, 1, 0]
  else if 120 ≤ h ∧ h < 180 then [0, 1, X]
  else if 180 ≤ h ∧ h < 240 then [0, X, 1]
  else if 240 ≤ h ∧ h < 300 then [X, 0, 1]
  else if 300 ≤ h ∧ h < 360 then [1, 0, X]
  else [0, 0, 0]

/-- `FractalJulia.__generate_color_scheme2__` (lines 46-50): grayscale ramp
`i = (value + 1) / self.iterations * 2` capped at 1, returned as `[i, i, i]`. -/
def FractalJulia.generate_color_scheme2 (self : FractalJulia) (value : ℕ) : List ℚ :=
  let i : ℚ := ((value : ℚ) + 1) / (self.iterations : ℚ) * 2
  let i2 : ℚ := if i > 1 then 1 else i
  [i2, i2, i2]

/-- `FractalJulia.__generate_color__` (lines 52-55). NOTE: the Python `else`
branch calls `__generate_color_scheme2__` but does not `return` it, so the
method returns `None` for any scheme other than 1 or 2; this is modelled by
`Option`. -/
def FractalJulia.generate_color (self : FractalJulia) (value : ℕ) : Option (List ℚ) :=
  if self.scheme = 1 then some (self.generate_color_scheme1 value)
  else if self.scheme = 2 then some (self.generate_color_scheme2 value)
  else none

/-- `FractalJulia.__init__` (lines 57-76): stores the parameters verbatim;
it performs no validation of any kind. -/
def FractalJulia.init (image_size : List ℕ) (grid_range : List ℚ)
    (function : Cplx → Cplx → Cplx) (constant : Cplx) (iterations : ℕ)
    (zmax : ℚ) (color_scheme : ℕ) : FractalJulia :=
  { image_width := image_size.getD 0 0
    image_height := image_size.getD 1 0
    minx := grid_range.getD 0 0
    miny := grid_range.getD 1 0
    maxx := grid_range.getD 2 0
    maxy := grid_range.getD 3 0
    iterations := iterations
    constant := constant
    function := function
    zmax := zmax
    scheme := color_scheme }

/-- The image buffer: a list of rows, each row a list of RGB byte triples.
`np.zeros((H, W, 3), dtype=np.uint8)` gives `H` rows of `W` triples. -/
abbrev Image : Type := List (List (ℕ × ℕ × ℕ))

/-- `np.zeros((h, w, 3), dtype=np.uint8)` (line 81): `h` rows of `w` zero
triples — the FIRST axis has length `h` (the height), the second `w`. -/
def zeroImage (h w : ℕ) : Image :=
  List.replicate h (List.replicate w (0, 0, 0))

/-- Read the full triple at `image[x][y]`; `none` models an `IndexError`. -/
def getCell (img : Image) (x y : ℕ) : Option (ℕ × ℕ × ℕ) :=
  match img[x]? with
  | none => none
  | some row => row[y]?

/-- Read the green channel `image[x, y, 1]`; `none` models an `IndexError`. -/
def getGreen (img : Image) (x y : ℕ) : Option ℕ :=
  match getCell img x y with
  | none => none
  | some (_, g, _) => some g

/-- Overwrite the triple at `image[x][y]`; `none` models an `IndexError`. -/
def setPixel (img : Image) (x y : ℕ) (col : ℕ × ℕ × ℕ) : Option Image :=
  match img[x]? with
  | none => none
  | some row =>
    match row[y]? with
    | none => none
    | some _ => some (img.set x (row.set y col))

/-- Message for a Python `IndexError` on the numpy buffer. -/
def indexErr : String := "IndexError: index out of bounds"

/-- Message for the Python `NameError` raised when the loop-scoped variable
`color` is read before any pixel has escaped. -/
def nameErr : String := "NameError: name color is not defined"

/-- Message for the Python `TypeError` raised when `color` is `None`
(unrecognized scheme selector) and gets subscripted. -/
def typeErr : String := "TypeError: NoneType object is not subscriptable"

/-- Lines 101-104: guarded write of one pixel.  The guard reads
`image[x, y, 1]` (an `IndexError` if out of bounds) and only writes when the
green channel reads zero.  `colorVar` is the state of the Python variable
`color`: `none` = never assigned (reading it is a `NameError`),
`some none` = assigned `None` (subscripting it is a `TypeError`),
`some (some c)` = assigned the list `c`. -/
def writePixel (img : Image) (x y : ℕ) (colorVar : Option (Option (List ℚ))) :
    Except String Image :=
  match getGreen img x y with
  | none => Except.error indexErr
  | some g =>
    if g = 0 then
      match colorVar with
      | none => Except.error nameErr
      | some none => Except.error typeErr
      | some (some color) =>
        match setPixel img x y
            (toByte (color.getD 0 0), toByte (color.getD 1 0), toByte (color.getD 2 0)) with
        | none => Except.error indexErr
        | some img2 => Except.ok img2
    else Except.ok img

/-- Lines 93-99: the escape-time loop `for c in range(1, iterations + 1)`.
`temp1` is the current iterate, `c` the current counter, the third argument
the number of remaining iterations.  Returns the counter value at which the
squared displacement from `z` first exceeds `zmax`, if any. -/
def escapeLoop (f : Cplx → Cplx → Cplx) (const z : Cplx) (zmax : ℚ) :
    Cplx → ℕ → ℕ → Option ℕ
  | _, _, 0 => none
  | temp1, c, fuel + 1 =>
    let temp2 := f temp1 const
    let rad : ℚ := (temp2.re - z.re) * (temp2.re - z.re) +
      (temp2.im - z.im) * (temp2.im - z.im)
    if rad > zmax then some c
    else escapeLoop f const z zmax temp2 (c + 1) fuel

/-- Lines 91-99 for one pixel: run the escape loop from `temp1 = z` with the
counter starting at 1; on escape at count `c` the Python variable `color` is
rebound to `self.__generate_color__(c)`, otherwise it keeps its previous
state (the carry-over across pixels). -/
def pixelColorVar (cfg : FractalJulia) (z : Cplx)
    (colorVar : Option (Option (List ℚ))) : Option (Option (List ℚ)) :=
  match escapeLoop cfg.function cfg.constant z cfg.zmax z 1 cfg.iterations with
  | some c => some (cfg.generate_color c)
  | none => colorVar

/-- Lines 86-89: the affine pixel-to-complex coordinate mapping. -/
def pixelZ (cfg : FractalJulia) (x y : ℕ) : Cplx :=
  ⟨cfg.minx + (x : ℚ) * (cfg.maxx - cfg.minx) / (cfg.image_width : ℚ),
   cfg.miny + (y : ℚ) * (cfg.maxy - cfg.miny) / (cfg.image_height : ℚ)⟩

/-- Lines 87-104: the inner loop over `y`, threading the Python `color`
variable and the image buffer; `z_r` is hoisted out as in the source. -/
def renderRowAux (cfg : FractalJulia) (x : ℕ) (z_r : ℚ) :
    List ℕ → Option (Option (List ℚ)) → Image →
    Except String (Option (Option (List ℚ)) × Image)
  | [], colorVar, img => Except.ok (colorVar, img)
  | y :: ys, colorVar, img =>
    let z_i : ℚ := cfg.miny + (y : ℚ) * (cfg.maxy - cfg.miny) / (cfg.image_height : ℚ)
    let z : Cplx := ⟨z_r, z_i⟩
    let colorVar2 := pixelColorVar cfg z colorVar
    match writePixel img x y colorVar2 with
    | Except.error e => Except.error e
    | Except.ok img2 => renderRowAux cfg x z_r ys colorVar2 img2

/-- Lines 84-104: the outer loop over `x`. -/
def renderCols (cfg : FractalJulia) :
    List ℕ → Option (Option (List ℚ)) → Image →
    Except String (Option (Option (List ℚ)) × Image)
  | [], colorVar, img => Except.ok (colorVar, img)
  | x :: xs, colorVar, img =>
    let z_r : ℚ := cfg.minx + (x : ℚ) * (cfg.maxx - cfg.minx) / (cfg.image_width : ℚ)
    match renderRowAux cfg x z_r (List.range cfg.image_height) colorVar img with
    | Except.error e => Except.error e
    | Except.ok (colorVar2, img2) => renderCols cfg xs colorVar2 img2

/-- `FractalJulia.generate` (lines 80-106): zero-initialize the buffer as
`(image_height, image_width, 3)` and run the scan with the `color` variable
initially unbound. -/
def FractalJulia.generate (cfg : FractalJulia) : Except String Image :=
  match renderCols cfg (List.range cfg.image_width) none
      (zeroImage cfg.image_height cfg.image_width) with
  | Except.error e => Except.error e
  | Except.ok (_, img) => Except.ok img

deriving instance DecidableEq for Except

/-- Spec-side: the `n`-th iterate of `f (·, const)` starting from `z`. -/
def iterN (f : Cplx → Cplx → Cplx) (const z : Cplx) : ℕ → Cplx
  | 0 => z
  | n + 1 => f (iterN f const z n) const

/-- Spec-side: squared displacement of `w` from `z` (line 95). -/
def sqDisp (z w : Cplx) : ℚ :=
  (w.re - z.re) * (w.re - z.re) + (w.im - z.im) * (w.im - z.im)

/-! ### Concrete configurations used by counterexamples and witnesses -/

/-- A malformed configuration: inverted grid bounds (`minx > maxx`,
`miny > maxy`), otherwise a 1×1 quadratic render. -/
def cfgC2bad : FractalJulia :=
  FractalJulia.init [1, 1] [1, 1, -1, -1] FunctionList.func_z2pc ⟨0, 0⟩ 3 1 2

/-- A malformed configuration: color-scheme selector 3 (not in the
set with elements 1 and 2), otherwise a 1×1 quadratic render whose pixel
escapes at the first iteration. -/
def cfgC2scheme3 : FractalJulia :=
  FractalJulia.init [1, 1] [-1, -1, 1, 1] FunctionList.func_z2pc ⟨0, 0⟩ 3 4 3

/-- A fully valid configuration (W=H=1>0, minx<maxx, miny<maxy, N=5≥1,
T=4>0, scheme 2, quadratic function) whose single pixel is z0 = 0 with
constant 0, so it never escapes. -/
def cfgC3bad : FractalJulia :=
  FractalJulia.init [1, 1] [0, 0, 1, 1] FunctionList.func_z2pc ⟨0, 0⟩ 5 4 2

/-- A valid non-square configuration: width 2, height 1. -/
def cfgC4ns : FractalJulia :=
  FractalJulia.init [2, 1] [-1, -1, 1, 1] FunctionList.func_z2pc ⟨0, 0⟩ 3 1 2

/-- A valid square 2×2 configuration (quadratic, constant 1+0i, N=3, T=10,
hue scheme 1) in which pixels (0,0), (0,1), (1,1) escape at counts 1, 2, 3
and pixel (1,0) never escapes. -/
def cfgA : FractalJulia :=
  FractalJulia.init [2, 2] [-1, -1, 1, 1] FunctionList.func_z2pc ⟨1, 0⟩ 3 10 1

/-- The image cfgA renders: buffer position [x][y] holds pixel (x,y);
the non-escaping pixel (1,0) receives the carry-over color of pixel (0,1). -/
def imgA : Image :=
  [[(255, 4, 0), (255, 8, 0)], [(255, 8, 0), (255, 12, 0)]]

/-! ### Spec-side definitions and helper lemmas -/

/-- Spec-side grayscale level of scheme 2: `min 1 ((c + 1) / N * 2)`. -/
def grayLevel (N c : ℕ) : ℚ := min 1 (((c : ℚ) + 1) / (N : ℚ) * 2)

/-- Spec-side variant of `writePixel` WITHOUT the green-channel guard: the
pixel is written unconditionally.  Comparing the render against this variant
expresses that the guard never suppresses a write. -/
def writePixelNG (img : Image) (x y : ℕ) (colorVar : Option (Option (List ℚ))) :
    Except String Image :=
  match colorVar with
  | none => Except.error nameErr
  | some none => Except.error typeErr
  | some (some color) =>
    match setPixel img x y
        (toByte (color.getD 0 0), toByte (color.getD 1 0), toByte (color.getD 2 0)) with
    | none => Except.error indexErr
    | some img2 => Except.ok img2

/-- Spec-side inner loop using the unguarded write. -/
def renderRowAuxNG (cfg : FractalJulia) (x : ℕ) (z_r : ℚ) :
    List ℕ → Option (Option (List ℚ)) → Image →
    Except String (Option (Option (List ℚ)) × Image)
  | [], colorVar, img => Except.ok (colorVar, img)
  | y :: ys, colorVar, img =>
    let z_i : ℚ := cfg.miny + (y : ℚ) * (cfg.maxy - cfg.miny) / (cfg.image_height : ℚ)
    let z : Cplx := ⟨z_r, z_i⟩
    let colorVar2 := pixelColorVar cfg z colorVar
    match writePixelNG img x y colorVar2 with
    | Except.error e => Except.error e
    | Except.ok img2 => renderRowAuxNG cfg x z_r ys colorVar2 img2

/-- Spec-side outer loop using the unguarded write. -/
def renderColsNG (cfg : FractalJulia) :
    List ℕ → Option (Option (List ℚ)) → Image →
    Except String (Option (Option (List ℚ)) × Image)
  | [], colorVar, img => Except.ok (colorVar, img)
  | x :: xs, colorVar, img =>
    let z_r : ℚ := cfg.minx + (x : ℚ) * (cfg.maxx - cfg.minx) / (cfg.image_width : ℚ)
    match renderRowAuxNG cfg x z_r (List.range cfg.image_height) colorVar img with
    | Except.error e => Except.error e
    | Except.ok (colorVar2, img2) => renderColsNG cfg xs colorVar2 img2

/-- Spec-side render with the unguarded write. -/
def generateNG (cfg : FractalJulia) : Except String Image :=
  match renderColsNG cfg (List.range cfg.image_width) none
      (zeroImage cfg.image_height cfg.image_width) with
  | Except.error e => Except.error e
  | Except.ok (_, img) => Except.ok img

/-- Shape predicate: a buffer with `s` rows, each of length `s`. -/
def Shaped (s : ℕ) (img : Image) : Prop :=
  img.length = s ∧ ∀ row ∈ img, row.length = s

lemma ite_gt_one_eq_min (i : ℚ) : (if i > 1 then 1 else i) = min 1 i := by
  rcases le_or_lt i 1 with h | h
  · rw [if_neg (not_lt.2 h), min_eq_right h]
  · rw [if_pos h, min_eq_left h.le]

lemma z2pc_zero : FunctionList.func_z2pc ⟨0, 0⟩ ⟨0, 0⟩ = ⟨0, 0⟩ := by
  simp [FunctionList.func_z2pc, cmul, cadd]

lemma iterN_zero_fixed :
    ∀ n, iterN FunctionList.func_z2pc ⟨0, 0⟩ ⟨0, 0⟩ n = ⟨0, 0⟩ := by
  intro n
  induction n with
  | zero => rfl
  | succ m ih => rw [iterN, ih, z2pc_zero]

lemma escapeLoop_zero_fixed (zmax : ℚ) (h : 0 < zmax) :
    ∀ (fuel c : ℕ),
      escapeLoop FunctionList.func_z2pc ⟨0, 0⟩ ⟨0, 0⟩ zmax ⟨0, 0⟩ c fuel = none := by
  intro fuel
  induction fuel with
  | zero => intro c; rfl
  | succ n ih =>
    intro c
    simp only [escapeLoop, z2pc_zero]
    rw [if_neg (by norm_num; linarith)]
    exact ih (c + 1)

lemma affine_bounds (lo hi : ℚ) (i n : ℕ) (hin : i < n) (hlohi : lo < hi) :
    lo ≤ lo + (i : ℚ) * (hi - lo) / (n : ℚ) ∧
      lo + (i : ℚ) * (hi - lo) / (n : ℚ) < hi := by
  have hn : (0 : ℚ) < n := by exact_mod_cast Nat.zero_lt_of_lt hin
  have hi0 : (0 : ℚ) ≤ i := Nat.cast_nonneg i
  have hiltn : (i : ℚ) < n := by exact_mod_cast hin
  have hd : (0 : ℚ) < hi - lo := by linarith
  constructor
  · have : (0 : ℚ) ≤ (i : ℚ) * (hi - lo) / n :=
      div_nonneg (mul_nonneg hi0 hd.le) hn.le
    linarith
  · have h2 : (i : ℚ) * (hi - lo) < n * (hi - lo) :=
      mul_lt_mul_of_pos_right hiltn hd
    have h3 : (i : ℚ) * (hi - lo) / n < hi - lo := by
      rw [div_lt_iff₀ hn]; nlinarith
    linarith

/-- The inductive characterization of the escape loop: starting the loop at
counter `c0 + 1` with the `c0`-th iterate as current value, it returns
`some c` exactly when `c` is the first counter in the remaining range whose
iterate has squared displacement from `z` strictly above `zmax`. -/
lemma escapeLoop_some_iff (f : Cplx → Cplx → Cplx) (const z : Cplx) (zmax : ℚ) :
    ∀ (fuel c0 c : ℕ),
      escapeLoop f const z zmax (iterN f const z c0) (c0 + 1) fuel = some c ↔
        (c0 + 1 ≤ c ∧ c ≤ c0 + fuel ∧ zmax < sqDisp z (iterN f const z c) ∧
          ∀ k, c0 + 1 ≤ k → k < c → sqDisp z (iterN f const z k) ≤ zmax) := by
  intro fuel
  induction fuel with
  | zero =>
    intro c0 c
    simp only [escapeLoop]
    constructor
    · intro h; exact absurd h (by simp)
    · rintro ⟨h1, h2, -, -⟩; omega
  | succ n ih =>
    intro c0 c
    have hstep : f (iterN f const z c0) const = iterN f const z (c0 + 1) := rfl
    have hfold : ∀ w : Cplx,
        (w.re - z.re) * (w.re - z.re) + (w.im - z.im) * (w.im - z.im) = sqDisp z w :=
      fun _ => rfl
    simp only [escapeLoop, hstep, hfold]
    by_cases hgt : sqDisp z (iterN f const z (c0 + 1)) > zmax
    · rw [if_pos hgt]
      constructor
      · intro h
        have hc : c = c0 + 1 := by
          have := Option.some.inj h; omega
        subst hc
        exact ⟨le_refl _, by omega, hgt, fun k hk1 hk2 => by omega⟩
      · rintro ⟨h1, h2, h3, h4⟩
        have hc : c = c0 + 1 := by
          by_contra hne
          have : sqDisp z (iterN f const z (c0 + 1)) ≤ zmax :=
            h4 (c0 + 1) le_rfl (by omega)
          linarith
        rw [hc]
    · rw [if_neg hgt]
      rw [ih (c0 + 1) c]
      constructor
      · rintro ⟨h1, h2, h3, h4⟩
        refine ⟨by omega, by omega, h3, fun k hk1 hk2 => ?_⟩
        by_cases hk : k = c0 + 1
        · rw [hk]; exact not_lt.1 hgt
        · exact h4 k (by omega) hk2
      · rintro ⟨h1, h2, h3, h4⟩
        have hc : c ≠ c0 + 1 := by
          rintro rfl; exact hgt h3
        exact ⟨by omega, by omega, h3, fun k hk1 hk2 => h4 k (by omega) hk2⟩

/-! ### Unfolding equations for the render loops -/

lemma renderRowAux_nil (cfg : FractalJulia) (x : ℕ) (z_r : ℚ)
    (cv : Option (Option (List ℚ))) (img : Image) :
    renderRowAux cfg x z_r [] cv img = Except.ok (cv, img) := rfl

lemma renderRowAux_cons (cfg : FractalJulia) (x : ℕ) (z_r : ℚ) (y : ℕ)
    (ys : List ℕ) (cv : Option (Option (List ℚ))) (img : Image) :
    renderRowAux cfg x z_r (y :: ys) cv img =
      match writePixel img x y (pixelColorVar cfg
          ⟨z_r, cfg.miny + (y : ℚ) * (cfg.maxy - cfg.miny) / (cfg.image_height : ℚ)⟩ cv) with
      | Except.error e => Except.error e
      | Except.ok img2 =>
        renderRowAux cfg x z_r ys (pixelColorVar cfg
          ⟨z_r, cfg.miny + (y : ℚ) * (cfg.maxy - cfg.miny) / (cfg.image_height : ℚ)⟩ cv) img2 := rfl

lemma renderCols_nil (cfg : FractalJulia) (cv : Option (Option (List ℚ)))
    (img : Image) : renderCols cfg [] cv img = Except.ok (cv, img) := rfl

lemma renderCols_cons (cfg : FractalJulia) (x : ℕ) (xs : List ℕ)
    (cv : Option (Option (List ℚ))) (img : Image) :
    renderCols cfg (x :: xs) cv img =
      match renderRowAux cfg x
          (cfg.minx + (x : ℚ) * (cfg.maxx - cfg.minx) / (cfg.image_width : ℚ))
          (List.range cfg.image_height) cv img with
      | Except.error e => Except.error e
      | Except.ok (cv2, img2) => renderCols cfg xs cv2 img2 := rfl

lemma renderRowAuxNG_nil (cfg : FractalJulia) (x : ℕ) (z_r : ℚ)
    (cv : Option (Option (List ℚ))) (img : Image) :
    renderRowAuxNG cfg x z_r [] cv img = Except.ok (cv, img) := rfl

lemma renderRowAuxNG_cons (cfg : FractalJulia) (x : ℕ) (z_r : ℚ) (y : ℕ)
    (ys : List ℕ) (cv : Option (Option (List ℚ))) (img : Image) :
    renderRowAuxNG cfg x z_r (y :: ys) cv img =
      match writePixelNG img x y (pixelColorVar cfg
          ⟨z_r, cfg.miny + (y : ℚ) * (cfg.maxy - cfg.miny) / (cfg.image_height : ℚ)⟩ cv) with
      | Except.error e => Except.error e
      | Except.ok img2 =>
        renderRowAuxNG cfg x z_r ys (pixelColorVar cfg
          ⟨z_r, cfg.miny + (y : ℚ) * (cfg.maxy - cfg.miny) / (cfg.image_height : ℚ)⟩ cv) img2 := rfl

lemma renderColsNG_nil (cfg : FractalJulia) (cv : Option (Option (List ℚ)))
    (img : Image) : renderColsNG cfg [] cv img = Except.ok (cv, img) := rfl

lemma renderColsNG_cons (cfg : FractalJulia) (x : ℕ) (xs : List ℕ)
    (cv : Option (Option (List ℚ))) (img : Image) :
    renderColsNG cfg (x :: xs) cv img =
      match renderRowAuxNG cfg x
          (cfg.minx + (x : ℚ) * (cfg.maxx - cfg.minx) / (cfg.image_width : ℚ))
          (List.range cfg.image_height) cv img with
      | Except.error e => Except.error e
      | Except.ok (cv2, img2) => renderColsNG cfg xs cv2 img2 := rfl

/-! ### Buffer lemmas -/

lemma getElem?_isSome_of_lt {α : Type} {l : List α} {i : ℕ} (h : i < l.length) :
    ∃ a, l[i]? = some a := by
  cases hg : l[i]? with
  | none => rw [List.getElem?_eq_none_iff] at hg; omega
  | some a => exact ⟨a, rfl⟩

lemma getGreen_zeroImage {h w x y : ℕ} (hx : x < h) (hy : y < w) :
    getGreen (zeroImage h w) x y = some 0 := by
  simp [getGreen, getCell, zeroImage, hx, hy]

lemma getCell_of_shaped {s x y : ℕ} {img : Image} (hx : x < s) (hy : y < s)
    (h : Shaped s img) : ∃ cell, getCell img x y = some cell := by
  obtain ⟨hlen, hrows⟩ := h
  obtain ⟨row, hrow⟩ := getElem?_isSome_of_lt (l := img) (i := x) (by omega)
  have hrlen : row.length = s := hrows row (List.getElem?_mem hrow)
  obtain ⟨cell, hcell⟩ := getElem?_isSome_of_lt (l := row) (i := y) (by omega)
  exact ⟨cell, by simp [getCell, hrow, hcell]⟩

lemma getGreen_of_shaped {s x y : ℕ} {img : Image} (hx : x < s) (hy : y < s)
    (h : Shaped s img) : ∃ g, getGreen img x y = some g := by
  obtain ⟨⟨r, g, b⟩, hc⟩ := getCell_of_shaped hx hy h
  exact ⟨g, by simp [getGreen, hc]⟩

lemma setPixel_ok {s x y : ℕ} {img : Image} (col : ℕ × ℕ × ℕ)
    (hx : x < s) (hy : y < s) (h : Shaped s img) :
    ∃ img2, setPixel img x y col = some img2 ∧ Shaped s img2 := by
  obtain ⟨hlen, hrows⟩ := h
  obtain ⟨row, hrow⟩ := getElem?_isSome_of_lt (l := img) (i := x) (by omega)
  have hrlen : row.length = s := hrows row (List.getElem?_mem hrow)
  obtain ⟨cell, hcell⟩ := getElem?_isSome_of_lt (l := row) (i := y) (by omega)
  refine ⟨img.set x (row.set y col), by simp [setPixel, hrow, hcell], ?_, ?_⟩
  · simp [hlen]
  · intro r hr
    rcases List.mem_or_eq_of_mem_set hr with h1 | h1
    · exact hrows r h1
    · rw [h1]; simp [hrlen]

lemma writePixel_green_zero {img : Image} {x y : ℕ}
    (cv : Option (Option (List ℚ))) (hg : getGreen img x y = some 0) :
    writePixel img x y cv = writePixelNG img x y cv := by
  unfold writePixel writePixelNG
  rw [hg]
  rfl

lemma writePixel_green_nonzero {img : Image} {x y : ℕ} {g : ℕ}
    (cv : Option (Option (List ℚ))) (hg : getGreen img x y = some g)
    (hg0 : g ≠ 0) :
    writePixel img x y cv = Except.ok img := by
  have h1 : writePixel img x y cv =
      (if g = 0 then
        (match cv with
          | none => Except.error nameErr
          | some none => Except.error typeErr
          | some (some color) =>
            match setPixel img x y (toByte (color.getD 0 0), toByte (color.getD 1 0),
                toByte (color.getD 2 0)) with
            | none => Except.error indexErr
            | some img2 => Except.ok img2)
      else Except.ok img) := by
    unfold writePixel
    rw [hg]
  rw [h1, if_neg hg0]

lemma writePixelNG_some_eq {img : Image} {x y : ℕ} (col : List ℚ) :
    writePixelNG img x y (some (some col)) =
      (match setPixel img x y (toByte (col.getD 0 0), toByte (col.getD 1 0),
          toByte (col.getD 2 0)) with
        | none => Except.error indexErr
        | some img2 => Except.ok img2) := rfl

lemma writePixel_ok {s x y : ℕ} {img : Image} (col : List ℚ)
    (hx : x < s) (hy : y < s) (h : Shaped s img) :
    ∃ img2, writePixel img x y (some (some col)) = Except.ok img2 ∧
      Shaped s img2 := by
  obtain ⟨g, hg⟩ := getGreen_of_shaped hx hy h
  by_cases hg0 : g = 0
  · subst hg0
    obtain ⟨img2, hset, hsh⟩ := setPixel_ok
      (toByte (col.getD 0 0), toByte (col.getD 1 0), toByte (col.getD 2 0)) hx hy h
    refine ⟨img2, ?_, hsh⟩
    rw [writePixel_green_zero _ hg, writePixelNG_some_eq, hset]
  · exact ⟨img, writePixel_green_nonzero _ hg hg0, h⟩

lemma generate_color_isSome {cfg : FractalJulia}
    (h : cfg.scheme = 1 ∨ cfg.scheme = 2) (c : ℕ) :
    ∃ col, cfg.generate_color c = some col := by
  rcases h with h | h <;> simp [FractalJulia.generate_color, h]

lemma pixelColorVar_escape {cfg : FractalJulia} {z : Cplx} {c : ℕ}
    (cv : Option (Option (List ℚ)))
    (h : escapeLoop cfg.function cfg.constant z cfg.zmax z 1 cfg.iterations = some c) :
    pixelColorVar cfg z cv = some (cfg.generate_color c) := by
  unfold pixelColorVar
  rw [h]

lemma pixelColorVar_noescape {cfg : FractalJulia} {z : Cplx}
    (cv : Option (Option (List ℚ)))
    (h : escapeLoop cfg.function cfg.constant z cfg.zmax z 1 cfg.iterations = none) :
    pixelColorVar cfg z cv = cv := by
  unfold pixelColorVar
  rw [h]

lemma pixelColorVar_bound {cfg : FractalJulia} {cv : Option (Option (List ℚ))}
    {col0 : List ℚ} (z : Cplx)
    (hschem : cfg.scheme = 1 ∨ cfg.scheme = 2) (hcv : cv = some (some col0)) :
    ∃ col, pixelColorVar cfg z cv = some (some col) := by
  cases hesc : escapeLoop cfg.function cfg.constant z cfg.zmax z 1 cfg.iterations with
  | none => exact ⟨col0, by rw [pixelColorVar_noescape cv hesc, hcv]⟩
  | some c =>
    obtain ⟨col, hcol⟩ := generate_color_isSome hschem c
    exact ⟨col, by rw [pixelColorVar_escape cv hesc, hcol]⟩

/-! ### Success of the render once the color variable is bound -/

lemma renderRowAux_ok (cfg : FractalJulia) {s : ℕ} (x : ℕ) (z_r : ℚ)
    (hschem : cfg.scheme = 1 ∨ cfg.scheme = 2) (hx : x < s) :
    ∀ (ys : List ℕ) (cv : Option (Option (List ℚ))) (col0 : List ℚ) (img : Image),
      cv = some (some col0) → (∀ y ∈ ys, y < s) → Shaped s img →
      ∃ col2 img2,
        renderRowAux cfg x z_r ys cv img = Except.ok (some (some col2), img2) ∧
        Shaped s img2 := by
  intro ys
  induction ys with
  | nil =>
    intro cv col0 img hcv hys hsh
    exact ⟨col0, img, by rw [renderRowAux_nil, hcv], hsh⟩
  | cons y ys ih =>
    intro cv col0 img hcv hys hsh
    obtain ⟨col1, hcol1⟩ := pixelColorVar_bound
      (⟨z_r, cfg.miny + (y : ℚ) * (cfg.maxy - cfg.miny) / (cfg.image_height : ℚ)⟩ : Cplx)
      hschem hcv
    obtain ⟨img2, hwp, hsh2⟩ :=
      writePixel_ok col1 hx (hys y (List.mem_cons_self y ys)) hsh
    rw [renderRowAux_cons, hcol1, hwp]
    exact ih (some (some col1)) col1 img2 rfl
      (fun y' hy' => hys y' (List.mem_cons_of_mem _ hy')) hsh2

lemma renderCols_ok (cfg : FractalJulia) {s : ℕ}
    (hschem : cfg.scheme = 1 ∨ cfg.scheme = 2) (hH : cfg.image_height = s) :
    ∀ (xs : List ℕ) (cv : Option (Option (List ℚ))) (col0 : List ℚ) (img : Image),
      cv = some (some col0) → (∀ x ∈ xs, x < s) → Shaped s img →
      ∃ cv2 img2, renderCols cfg xs cv img = Except.ok (cv2, img2) := by
  intro xs
  induction xs with
  | nil =>
    intro cv col0 img hcv hxs hsh
    exact ⟨cv, img, renderCols_nil cfg cv img⟩
  | cons x xs ih =>
    intro cv col0 img hcv hxs hsh
    obtain ⟨col2, img2, hrow, hsh2⟩ := renderRowAux_ok cfg x
      (cfg.minx + (x : ℚ) * (cfg.maxx - cfg.minx) / (cfg.image_width : ℚ))
      hschem (hxs x (List.mem_cons_self x xs)) (List.range cfg.image_height)
      cv col0 img hcv
      (fun y hy => by have := List.mem_range.1 hy; omega) hsh
    rw [renderCols_cons, hrow]
    exact ih (some (some col2)) col2 img2 rfl
      (fun x' hx' => hxs x' (List.mem_cons_of_mem _ hx')) hsh2

/-! ### The green-channel guard never fires from a zero-initialized buffer -/

lemma writePixel_eq_NG {img : Image} {x y : ℕ} (cv : Option (Option (List ℚ)))
    (hg : getGreen img x y = some 0) :
    writePixel img x y cv = writePixelNG img x y cv := by
  cases cv with
  | none => simp [writePixel, writePixelNG, hg]
  | some o => cases o with
    | none => simp [writePixel, writePixelNG, hg]
    | some col => simp [writePixel, writePixelNG, hg]

lemma setPixel_eq_some_elim {img img2 : Image} {x y : ℕ} {col : ℕ × ℕ × ℕ}
    (h : setPixel img x y col = some img2) :
    ∃ row cell, img[x]? = some row ∧ row[y]? = some cell ∧
      img2 = img.set x (row.set y col) := by
  unfold setPixel at h
  cases hrow : img[x]? with
  | none => rw [hrow] at h; exact absurd h (by simp)
  | some row =>
    rw [hrow] at h
    have h2 : (match row[y]? with
        | none => none
        | some _ => some (img.set x (row.set y col))) = some img2 := h
    cases hcell : row[y]? with
    | none => rw [hcell] at h2; exact absurd h2 (by simp)
    | some cell =>
      rw [hcell] at h2
      exact ⟨row, cell, rfl, hcell, (Option.some.inj h2).symm⟩

lemma setPixel_getCell_ne {img img2 : Image} {x y : ℕ} {col : ℕ × ℕ × ℕ}
    (hset : setPixel img x y col = some img2) (x' y' : ℕ)
    (hne : x' ≠ x ∨ y' ≠ y) :
    getCell img2 x' y' = getCell img x' y' := by
  obtain ⟨row, cell, hrow, hcell, himg2⟩ := setPixel_eq_some_elim hset
  subst himg2
  unfold getCell
  by_cases hxx : x' = x
  · have hyy : y' ≠ y := hne.resolve_left (fun h => h hxx)
    rw [hxx]
    have hset2 : (img.set x (row.set y col))[x]? = some (row.set y col) := by
      rw [List.getElem?_set_self', hrow]; rfl
    rw [hset2, hrow]
    show (row.set y col)[y']? = row[y']?
    exact List.getElem?_set_ne (fun h => hyy h.symm)
  · rw [List.getElem?_set_ne (fun h => hxx h.symm)]

lemma getGreen_congr {img img2 : Image} {x y : ℕ}
    (h : getCell img2 x y = getCell img x y) :
    getGreen img2 x y = getGreen img x y := by
  unfold getGreen
  rw [h]

lemma writePixelNG_ok_elim {img img2 : Image} {x y : ℕ}
    {cv : Option (Option (List ℚ))}
    (h : writePixelNG img x y cv = Except.ok img2) :
    ∃ col, cv = some (some col) ∧
      setPixel img x y
        (toByte (col.getD 0 0), toByte (col.getD 1 0), toByte (col.getD 2 0)) =
        some img2 := by
  cases cv with
  | none => exact absurd h (by simp [writePixelNG])
  | some o => cases o with
    | none => exact absurd h (by simp [writePixelNG])
    | some col =>
      refine ⟨col, rfl, ?_⟩
      have h2 : (match setPixel img x y
          (toByte (col.getD 0 0), toByte (col.getD 1 0), toByte (col.getD 2 0)) with
        | none => Except.error indexErr
        | some img3 => Except.ok img3) = Except.ok img2 := h
      cases hset : setPixel img x y
          (toByte (col.getD 0 0), toByte (col.getD 1 0), toByte (col.getD 2 0)) with
      | none => rw [hset] at h2; exact absurd h2 (by simp)
      | some i2 =>
        rw [hset] at h2
        exact congrArg some (Except.ok.inj h2)

lemma renderRowAux_eq_NG (cfg : FractalJulia) (x : ℕ) (z_r : ℚ) :
    ∀ (ys : List ℕ) (cv : Option (Option (List ℚ))) (img : Image),
      (∀ y ∈ ys, getGreen img x y = some 0) → ys.Nodup →
      (renderRowAux cfg x z_r ys cv img = renderRowAuxNG cfg x z_r ys cv img ∧
        ∀ cv2 img2, renderRowAuxNG cfg x z_r ys cv img = Except.ok (cv2, img2) →
          ∀ x' y', x' ≠ x → getCell img2 x' y' = getCell img x' y') := by
  intro ys
  induction ys with
  | nil =>
    intro cv img hg hnd
    refine ⟨rfl, ?_⟩
    intro cv2 img2 h x' y' hx'
    rw [renderRowAuxNG_nil] at h
    injection Except.ok.inj h with h1 h2
    rw [← h2]
  | cons y ys ih =>
    intro cv img hg hnd
    have hgy : getGreen img x y = some 0 := hg y (List.mem_cons_self y ys)
    have hnotmem : y ∉ ys := (List.nodup_cons.1 hnd).1
    have hndtail : ys.Nodup := (List.nodup_cons.1 hnd).2
    rw [renderRowAux_cons, renderRowAuxNG_cons]
    set CV2 := pixelColorVar cfg
      ⟨z_r, cfg.miny + (y : ℚ) * (cfg.maxy - cfg.miny) / (cfg.image_height : ℚ)⟩ cv
      with hCV2
    rw [writePixel_eq_NG CV2 hgy]
    cases hwp : writePixelNG img x y CV2 with
    | error e =>
      refine ⟨rfl, ?_⟩
      intro cv2 img2 h x' y' hx'
      exact absurd h (by simp)
    | ok img1 =>
      obtain ⟨col, hcvcol, hset⟩ := writePixelNG_ok_elim hwp
      have hginv : ∀ y' ∈ ys, getGreen img1 x y' = some 0 := by
        intro y' hy'
        have hne : x ≠ x ∨ y' ≠ y := Or.inr (fun hEq => hnotmem (hEq ▸ hy'))
        rw [getGreen_congr (setPixel_getCell_ne hset x y' hne)]
        exact hg y' (List.mem_cons_of_mem _ hy')
      obtain ⟨heq, hloc⟩ := ih CV2 img1 hginv hndtail
      refine ⟨heq, ?_⟩
      intro cv2 img2 h x' y' hx'
      have h2 : renderRowAuxNG cfg x z_r ys CV2 img1 = Except.ok (cv2, img2) := h
      rw [hloc cv2 img2 h2 x' y' hx']
      exact setPixel_getCell_ne hset x' y' (Or.inl hx')

lemma renderCols_eq_NG (cfg : FractalJulia) :
    ∀ (xs : List ℕ) (cv : Option (Option (List ℚ))) (img : Image),
      (∀ x ∈ xs, ∀ y, y < cfg.image_height → getGreen img x y = some 0) →
      xs.Nodup →
      renderCols cfg xs cv img = renderColsNG cfg xs cv img := by
  intro xs
  induction xs with
  | nil => intro cv img hg hnd; rfl
  | cons x xs ih =>
    intro cv img hg hnd
    have hnotmem : x ∉ xs := (List.nodup_cons.1 hnd).1
    have hndtail : xs.Nodup := (List.nodup_cons.1 hnd).2
    obtain ⟨heq, hloc⟩ := renderRowAux_eq_NG cfg x
      (cfg.minx + (x : ℚ) * (cfg.maxx - cfg.minx) / (cfg.image_width : ℚ))
      (List.range cfg.image_height) cv img
      (fun y hy => hg x (List.mem_cons_self x xs) y (List.mem_range.1 hy))
      (List.nodup_range _)
    rw [renderCols_cons, renderColsNG_cons, heq]
    cases hres : renderRowAuxNG cfg x
        (cfg.minx + (x : ℚ) * (cfg.maxx - cfg.minx) / (cfg.image_width : ℚ))
        (List.range cfg.image_height) cv img with
    | error e => rfl
    | ok p =>
      obtain ⟨cv2, img2⟩ := p
      have hginv : ∀ x' ∈ xs, ∀ y, y < cfg.image_height →
          getGreen img2 x' y = some 0 := by
        intro x' hx' y hy
        have hne : x' ≠ x := fun hEq => hnotmem (hEq ▸ hx')
        rw [getGreen_congr (hloc cv2 img2 hres x' y hne)]
        exact hg x' (List.mem_cons_of_mem _ hx') y hy
      exact ih cv2 img2 hginv hndtail

lemma generate_eq_NG_of_square (cfg : FractalJulia)
    (hsq : cfg.image_width = cfg.image_height) :
    FractalJulia.generate cfg = generateNG cfg := by
  have heq := renderCols_eq_NG cfg (List.range cfg.image_width) none
    (zeroImage cfg.image_height cfg.image_width)
    (fun x hx y hy => getGreen_zeroImage
      (by have := List.mem_range.1 hx; omega) (by omega))
    (List.nodup_range _)
  unfold FractalJulia.generate generateNG
  rw [heq]

/-! ### Composed step equations for forward reasoning -/

lemma renderRowAux_cons_ok (cfg : FractalJulia) (x : ℕ) (z_r : ℚ) (y : ℕ)
    (ys : List ℕ) (cv cv2 : Option (Option (List ℚ))) (img img2 : Image)
    (h1 : pixelColorVar cfg
      ⟨z_r, cfg.miny + (y : ℚ) * (cfg.maxy - cfg.miny) / (cfg.image_height : ℚ)⟩
      cv = cv2)
    (h2 : writePixel img x y cv2 = Except.ok img2) :
    renderRowAux cfg x z_r (y :: ys) cv img =
      renderRowAux cfg x z_r ys cv2 img2 := by
  rw [renderRowAux_cons, h1, h2]

lemma renderRowAux_cons_err (cfg : FractalJulia) (x : ℕ) (z_r : ℚ) (y : ℕ)
    (ys : List ℕ) (cv cv2 : Option (Option (List ℚ))) (img : Image) (e : String)
    (h1 : pixelColorVar cfg
      ⟨z_r, cfg.miny + (y : ℚ) * (cfg.maxy - cfg.miny) / (cfg.image_height : ℚ)⟩
      cv = cv2)
    (h2 : writePixel img x y cv2 = Except.error e) :
    renderRowAux cfg x z_r (y :: ys) cv img = Except.error e := by
  rw [renderRowAux_cons, h1, h2]

lemma renderCols_cons_ok (cfg : FractalJulia) (x : ℕ) (xs : List ℕ)
    (cv cv2 : Option (Option (List ℚ))) (img img2 : Image)
    (h : renderRowAux cfg x
        (cfg.minx + (x : ℚ) * (cfg.maxx - cfg.minx) / (cfg.image_width : ℚ))
        (List.range cfg.image_height) cv img = Except.ok (cv2, img2)) :
    renderCols cfg (x :: xs) cv img = renderCols cfg xs cv2 img2 := by
  rw [renderCols_cons, h]

lemma renderCols_cons_err (cfg : FractalJulia) (x : ℕ) (xs : List ℕ)
    (cv : Option (Option (List ℚ))) (img : Image) (e : String)
    (h : renderRowAux cfg x
        (cfg.minx + (x : ℚ) * (cfg.maxx - cfg.minx) / (cfg.image_width : ℚ))
        (List.range cfg.image_height) cv img = Except.error e) :
    renderCols cfg (x :: xs) cv img = Except.error e := by
  rw [renderCols_cons, h]

lemma generate_ok_of_renderCols (cfg : FractalJulia)
    (cv : Option (Option (List ℚ))) (img : Image)
    (h : renderCols cfg (List.range cfg.image_width) none
        (zeroImage cfg.image_height cfg.image_width) = Except.ok (cv, img)) :
    FractalJulia.generate cfg = Except.ok img := by
  unfold FractalJulia.generate
  rw [h]

lemma generate_err_of_renderCols (cfg : FractalJulia) (e : String)
    (h : renderCols cfg (List.range cfg.image_width) none
        (zeroImage cfg.image_height cfg.image_width) = Except.error e) :
    FractalJulia.generate cfg = Except.error e := by
  unfold FractalJulia.generate
  rw [h]

lemma zeroImage_shaped {s : ℕ} : Shaped s (zeroImage s s) := by
  constructor
  · exact List.length_replicate _ _
  · intro row hrow
    rw [List.eq_of_mem_replicate hrow]
    exact List.length_replicate _ _

/-! ### Claim theorems -/

/-- C1: the escape-time loop starts from `temp = z0`, applies
`temp = f(temp, constant)` for counts 1..N, and returns the FIRST count `c`
whose iterate has squared displacement from z0 strictly above the threshold;
on that count the pixel color variable is bound to `color_map(c)`. -/
theorem c1_escape_loop_first_escape :
    (∀ (f : Cplx → Cplx → Cplx) (const z : Cplx) (zmax : ℚ) (N c : ℕ),
      escapeLoop f const z zmax z 1 N = some c ↔
        (1 ≤ c ∧ c ≤ N ∧ zmax < sqDisp z (iterN f const z c) ∧
          ∀ k, 1 ≤ k → k < c → sqDisp z (iterN f const z k) ≤ zmax)) ∧
    (∀ (cfg : FractalJulia) (z : Cplx) (colorVar : Option (Option (List ℚ))) (c : ℕ),
      escapeLoop cfg.function cfg.constant z cfg.zmax z 1 cfg.iterations = some c →
      pixelColorVar cfg z colorVar = some (cfg.generate_color c)) := by
  constructor
  · intro f const z zmax N c
    have h := escapeLoop_some_iff f const z zmax N 0 c
    simpa [iterN] using h
  · intro cfg z colorVar c h
    simp only [pixelColorVar, h]

/-- Witness for C1 at a concrete input: pixel (0,0) of `cfgA` escapes at
count 1, and the pixel color variable is bound to `color_map(1)`. -/
theorem c1_witness :
    escapeLoop cfgA.function cfgA.constant (pixelZ cfgA 0 0) cfgA.zmax
        (pixelZ cfgA 0 0) 1 cfgA.iterations = some 1 ∧
    pixelColorVar cfgA (pixelZ cfgA 0 0) none = some (cfgA.generate_color 1) :=
  ⟨by decide, c1_escape_loop_first_escape.2 cfgA (pixelZ cfgA 0 0) none 1 (by decide)⟩

/-- C5: the pixel-to-complex mapping is the affine formula of lines 86-89,
and (in exact arithmetic) lands in `[minx, maxx) × [miny, maxy)`. -/
theorem c5_pixel_mapping :
    ∀ (cfg : FractalJulia) (x y : ℕ),
      x < cfg.image_width → y < cfg.image_height →
      cfg.minx < cfg.maxx → cfg.miny < cfg.maxy →
      pixelZ cfg x y =
        ⟨cfg.minx + (x : ℚ) * (cfg.maxx - cfg.minx) / (cfg.image_width : ℚ),
         cfg.miny + (y : ℚ) * (cfg.maxy - cfg.miny) / (cfg.image_height : ℚ)⟩ ∧
      cfg.minx ≤ (pixelZ cfg x y).re ∧ (pixelZ cfg x y).re < cfg.maxx ∧
      cfg.miny ≤ (pixelZ cfg x y).im ∧ (pixelZ cfg x y).im < cfg.maxy := by
  intro cfg x y hx hy hxx hyy
  have hre := affine_bounds cfg.minx cfg.maxx x cfg.image_width hx hxx
  have him := affine_bounds cfg.miny cfg.maxy y cfg.image_height hy hyy
  exact ⟨rfl, hre.1, hre.2, him.1, him.2⟩

/-- Witness for C5 at pixel (1,0) of `cfgA`. -/
theorem c5_witness :
    cfgA.minx ≤ (pixelZ cfgA 1 0).re ∧ (pixelZ cfgA 1 0).re < cfgA.maxx ∧
    cfgA.miny ≤ (pixelZ cfgA 1 0).im ∧ (pixelZ cfgA 1 0).im < cfgA.maxy :=
  (c5_pixel_mapping cfgA 1 0 (by decide) (by decide) (by decide) (by decide)).2

/-- C7: scheme 2 maps `c` to `(i, i, i)` with `i = min 1 ((c+1)/N*2)`; the
level is monotone in `c` and the triple is exactly `(1,1,1)` once
`N/2 ≤ c+1`. -/
theorem c7_scheme2_ramp :
    ∀ cfg : FractalJulia, 0 < cfg.iterations →
      (∀ c : ℕ, cfg.generate_color_scheme2 c =
        [grayLevel cfg.iterations c, grayLevel cfg.iterations c,
          grayLevel cfg.iterations c]) ∧
      (∀ c d : ℕ, c ≤ d →
        grayLevel cfg.iterations c ≤ grayLevel cfg.iterations d) ∧
      (∀ c : ℕ, (cfg.iterations : ℚ) / 2 ≤ (c : ℚ) + 1 →
        cfg.generate_color_scheme2 c = [1, 1, 1]) := by
  intro cfg hNnat
  have hN : (0 : ℚ) < (cfg.iterations : ℚ) := by exact_mod_cast hNnat
  refine ⟨?_, ?_, ?_⟩
  · intro c
    simp only [FractalJulia.generate_color_scheme2, grayLevel, ite_gt_one_eq_min]
  · intro c d hcd
    unfold grayLevel
    apply min_le_min le_rfl
    have hc : (c : ℚ) + 1 ≤ (d : ℚ) + 1 := by
      have : (c : ℚ) ≤ (d : ℚ) := by exact_mod_cast hcd
      linarith
    exact mul_le_mul_of_nonneg_right ((div_le_div_iff_of_pos_right hN).2 hc) (by norm_num)
  · intro c hc
    simp only [FractalJulia.generate_color_scheme2]
    have h1 : (1 : ℚ) ≤ ((c : ℚ) + 1) / (cfg.iterations : ℚ) * 2 := by
      rw [div_mul_eq_mul_div, le_div_iff₀ hN]
      linarith
    rcases lt_or_eq_of_le h1 with h | h
    · rw [if_pos h]
    · rw [if_neg (by rw [← h]; exact lt_irrefl 1), ← h]

/-- Witness for C7 at N = 4: scheme 2 saturates at (1,1,1) for c = 1. -/
theorem c7_witness :
    0 < cfgA.iterations ∧ cfgA.generate_color_scheme2 2 =
      [grayLevel cfgA.iterations 2, grayLevel cfgA.iterations 2,
        grayLevel cfgA.iterations 2] :=
  ⟨by decide, (c7_scheme2_ramp cfgA (by decide)).1 2⟩

/-- C8: scheme 1 is periodic with period 360 in the iteration count, and the
boundary hues 0, 120, 240 give the pure primaries (1,0,0), (0,1,0), (0,0,1). -/
theorem c8_scheme1_periodic :
    (∀ (cfg : FractalJulia) (c : ℕ),
      cfg.generate_color_scheme1 (c + 360) = cfg.generate_color_scheme1 c) ∧
    (∀ cfg : FractalJulia,
      cfg.generate_color_scheme1 0 = [1, 0, 0] ∧
      cfg.generate_color_scheme1 120 = [0, 1, 0] ∧
      cfg.generate_color_scheme1 240 = [0, 0, 1]) := by
  constructor
  · intro cfg c
    simp only [FractalJulia.generate_color_scheme1, Nat.add_mod_right]
  · intro cfg
    refine ⟨?_, ?_, ?_⟩ <;>
      (simp only [FractalJulia.generate_color_scheme1]; decide)

/-- C9: for the quadratic function with constant 0, the pixel at z0 = 0 never
escapes: every iterate stays at 0 and the escape loop returns `none` for
every iteration cap and every positive threshold. -/
theorem c9_zero_never_escapes :
    ∀ (N : ℕ) (zmax : ℚ), 0 < zmax →
      escapeLoop FunctionList.func_z2pc ⟨0, 0⟩ ⟨0, 0⟩ zmax ⟨0, 0⟩ 1 N = none ∧
      ∀ n, iterN FunctionList.func_z2pc ⟨0, 0⟩ ⟨0, 0⟩ n = ⟨0, 0⟩ :=
  fun N zmax h => ⟨escapeLoop_zero_fixed zmax h N 1, iterN_zero_fixed⟩

/-- Witness for C9 at N = 5, threshold 4. -/
theorem c9_witness :
    (0 : ℚ) < 4 ∧
      escapeLoop FunctionList.func_z2pc ⟨0, 0⟩ ⟨0, 0⟩ 4 ⟨0, 0⟩ 1 5 = none :=
  ⟨by norm_num, (c9_zero_never_escapes 5 4 (by norm_num)).1⟩

/-- C2 is FALSE on the code: this configuration has inverted grid bounds in
both axes (minx > maxx, miny > maxy), yet `generate` performs the full
per-pixel render and returns a complete image buffer — no error is surfaced
and a (here even complete) image is produced. -/
theorem c2_counterexample :
    cfgC2bad.maxx < cfgC2bad.minx ∧ cfgC2bad.maxy < cfgC2bad.miny ∧
    FractalJulia.generate cfgC2bad = Except.ok [[(255, 255, 255)]] := by
  refine ⟨by decide, by decide, by decide⟩

/-- C2 amended: the core performs no configuration validation at all —
`__init__` stores parameters verbatim; a render with inverted bounds
completes normally, and an unrecognized color-scheme selector surfaces only
lazily, as a TypeError from inside the per-pixel loop. -/
theorem c2_amended_no_eager_validation :
    FractalJulia.generate cfgC2bad = Except.ok [[(255, 255, 255)]] ∧
    cfgC2scheme3.scheme = 3 ∧
    FractalJulia.generate cfgC2scheme3 = Except.error typeErr := by
  refine ⟨by decide, by decide, by decide⟩

/-- C3 is FALSE on the code: `cfgC3bad` is fully valid (positive dimensions,
ordered bounds, N ≥ 1, positive threshold, scheme 2, quadratic function),
yet its single pixel never escapes, so the loop-scoped `color` variable is
never bound and `generate` fails with a NameError instead of returning a
buffer. -/
theorem c3_counterexample :
    (0 < cfgC3bad.image_width ∧ 0 < cfgC3bad.image_height ∧
      cfgC3bad.minx < cfgC3bad.maxx ∧ cfgC3bad.miny < cfgC3bad.maxy ∧
      1 ≤ cfgC3bad.iterations ∧ 0 < cfgC3bad.zmax ∧ cfgC3bad.scheme = 2 ∧
      cfgC3bad.function = FunctionList.func_z2pc) ∧
    FractalJulia.generate cfgC3bad = Except.error nameErr := by
  exact ⟨⟨by decide, by decide, by decide, by decide, by decide, by decide,
    by decide, rfl⟩, by decide⟩

/-- C4 is FALSE on the code: the buffer is allocated `(H, W, 3)`, so its
first axis has the length of the HEIGHT; with width 2 and height 1 the
`[x][y]` write addressing runs off the first axis and `generate` raises an
IndexError instead of returning a buffer. -/
theorem c4_counterexample :
    cfgC4ns.image_width = 2 ∧ cfgC4ns.image_height = 1 ∧
    (zeroImage cfgC4ns.image_height cfgC4ns.image_width).length = 1 ∧
    FractalJulia.generate cfgC4ns = Except.error indexErr := by
  refine ⟨by decide, by decide, by decide, by decide⟩

/-- C4 amended: the buffer is allocated with first axis of length H (height)
and second of length W (width), while writes address it as `[x][y]` with
`x` the width index; the two conventions agree only on square images, where
pixel (x,y) is indeed stored at position `[x][y]` (checked concretely on the
2×2 render `cfgA`). -/
theorem c4_amended_buffer_layout :
    (∀ h w : ℕ, (zeroImage h w).length = h ∧
      ∀ row ∈ zeroImage h w, row.length = w) ∧
    (FractalJulia.generate cfgA = Except.ok imgA ∧
      getCell imgA 0 1 = some (255, 8, 0) ∧
      getCell imgA 1 1 = some (255, 12, 0)) := by
  constructor
  · intro h w
    refine ⟨List.length_replicate _ _, ?_⟩
    intro row hrow
    rw [List.eq_of_mem_replicate hrow]
    exact List.length_replicate _ _
  · exact ⟨by decide, by decide, by decide⟩

/-- Witness for C4 (amended) at a concrete shape: height 2, width 3. -/
theorem c4_witness :
    (zeroImage 2 3).length = 2 ∧
      (List.replicate 3 ((0 : ℕ), (0 : ℕ), (0 : ℕ))).length = 3 :=
  ⟨(c4_amended_buffer_layout.1 2 3).1,
    (c4_amended_buffer_layout.1 2 3).2 _ (by decide)⟩

/-- C3 amended: for every valid configuration that is additionally SQUARE
(width = height) and whose first pixel (x=0, y=0) escapes within N
iterations, the per-pixel loop raises no error and `generate` returns an
image buffer.  (Without the added conditions the original claim is false:
see `c3_counterexample` for the unbound-`color` NameError on a valid
configuration whose first pixel never escapes, and `c4_counterexample` for
the IndexError on a valid non-square configuration.) -/
theorem c3_amended_render_succeeds :
    ∀ cfg : FractalJulia,
      cfg.minx < cfg.maxx → cfg.miny < cfg.maxy →
      1 ≤ cfg.iterations → 0 < cfg.zmax →
      (cfg.scheme = 1 ∨ cfg.scheme = 2) →
      cfg.image_width = cfg.image_height → 0 < cfg.image_width →
      (escapeLoop cfg.function cfg.constant (pixelZ cfg 0 0) cfg.zmax
        (pixelZ cfg 0 0) 1 cfg.iterations).isSome →
      ∃ img, FractalJulia.generate cfg = Except.ok img := by
  intro cfg hxx hyy hN hT hschem hsq hpos hesc
  obtain ⟨w, hw⟩ : ∃ w, cfg.image_width = w + 1 :=
    ⟨cfg.image_width - 1, by omega⟩
  have hh : cfg.image_height = w + 1 := by omega
  rw [Option.isSome_iff_exists] at hesc
  obtain ⟨c, hc⟩ := hesc
  obtain ⟨colf, hcolf⟩ := generate_color_isSome hschem c
  have hpcv : pixelColorVar cfg (pixelZ cfg 0 0) none = some (some colf) := by
    rw [pixelColorVar_escape none hc, hcolf]
  have hsh0 : Shaped (w + 1) (zeroImage cfg.image_height cfg.image_width) := by
    rw [hh, hw]
    exact zeroImage_shaped
  obtain ⟨img1, hwp1, hsh1⟩ := writePixel_ok (s := w + 1) (x := 0) (y := 0) colf
    (by omega) (by omega) hsh0
  obtain ⟨col2, img2, hrow2, hsh2⟩ := renderRowAux_ok cfg 0
    (cfg.minx + ((0 : ℕ) : ℚ) * (cfg.maxx - cfg.minx) / (cfg.image_width : ℚ))
    hschem (by omega) (List.map Nat.succ (List.range w)) (some (some colf)) colf
    img1 rfl
    (fun y hy => by
      obtain ⟨k, hk, hky⟩ := List.mem_map.1 hy
      have := List.mem_range.1 hk
      omega) hsh1
  obtain ⟨cv3, img3, hcols⟩ := renderCols_ok cfg hschem hh
    (List.map Nat.succ (List.range w)) (some (some col2)) col2 img2 rfl
    (fun x' hx' => by
      obtain ⟨k, hk, hkx⟩ := List.mem_map.1 hx'
      have := List.mem_range.1 hk
      omega) hsh2
  have hrangeH : List.range cfg.image_height =
      0 :: List.map Nat.succ (List.range w) := by
    rw [hh, List.range_succ_eq_map]
  have hrangeW : List.range cfg.image_width =
      0 :: List.map Nat.succ (List.range w) := by
    rw [hw, List.range_succ_eq_map]
  have hrowFull : renderRowAux cfg 0
      (cfg.minx + ((0 : ℕ) : ℚ) * (cfg.maxx - cfg.minx) / (cfg.image_width : ℚ))
      (List.range cfg.image_height) none
      (zeroImage cfg.image_height cfg.image_width) =
      Except.ok (some (some col2), img2) := by
    rw [hrangeH]
    exact (renderRowAux_cons_ok cfg 0 _ 0 _ none (some (some colf)) _ img1
      hpcv hwp1).trans hrow2
  have hcolsFull : renderCols cfg (List.range cfg.image_width) none
      (zeroImage cfg.image_height cfg.image_width) = Except.ok (cv3, img3) := by
    rw [hrangeW]
    exact (renderCols_cons_ok cfg 0 _ none (some (some col2)) _ img2
      hrowFull).trans hcols
  exact ⟨img3, generate_ok_of_renderCols cfg cv3 img3 hcolsFull⟩

/-- Witness for C3 (amended) at the concrete square configuration `cfgA`. -/
theorem c3_witness :
    ∃ img, FractalJulia.generate cfgA = Except.ok img :=
  c3_amended_render_succeeds cfgA (by decide) (by decide) (by decide)
    (by decide) (Or.inl (by decide)) (by decide) (by decide) (by decide)

/-- C6: the buffer is created zero-initialized, and from a zero-initialized
buffer the green-channel write guard never suppresses a write: on square
images the guarded render is extensionally equal to the unguarded render
`generateNG`, so each position is written exactly at its own turn in the
scan and is never overwritten. -/
theorem c6_zero_init_guard_no_suppress :
    (∀ h w x y : ℕ, x < h → y < w →
      getCell (zeroImage h w) x y = some (0, 0, 0)) ∧
    (∀ cfg : FractalJulia, cfg.image_width = cfg.image_height →
      FractalJulia.generate cfg = generateNG cfg) := by
  constructor
  · intro h w x y hx hy
    simp [getCell, zeroImage, hx, hy]
  · intro cfg hsq
    exact generate_eq_NG_of_square cfg hsq

/-- Witness for C6 at a concrete position and at the square render `cfgA`. -/
theorem c6_witness :
    getCell (zeroImage 2 2) 1 1 = some (0, 0, 0) ∧
      FractalJulia.generate cfgA = generateNG cfgA :=
  ⟨c6_zero_init_guard_no_suppress.1 2 2 1 1 (by decide) (by decide),
    c6_zero_init_guard_no_suppress.2 cfgA (by decide)⟩

/-- C10: if the first pixel in scan order (x=0, y=0) does not escape within
N iterations, `generate` fails with the unbound-variable NameError instead
of returning an image; a later non-escaping pixel is instead silently
colored with the color of the most recently escaped pixel — shown
concretely on `cfgA`, where the non-escaping pixel (1,0) receives exactly
the color (255,8,0) computed for the escaped pixel (0,1). -/
theorem c10_unbound_color_carry_over :
    (∀ cfg : FractalJulia, 0 < cfg.image_width → 0 < cfg.image_height →
      escapeLoop cfg.function cfg.constant (pixelZ cfg 0 0) cfg.zmax
        (pixelZ cfg 0 0) 1 cfg.iterations = none →
      FractalJulia.generate cfg = Except.error nameErr) ∧
    (FractalJulia.generate cfgA = Except.ok imgA ∧
      escapeLoop cfgA.function cfgA.constant (pixelZ cfgA 1 0) cfgA.zmax
        (pixelZ cfgA 1 0) 1 cfgA.iterations = none ∧
      escapeLoop cfgA.function cfgA.constant (pixelZ cfgA 0 1) cfgA.zmax
        (pixelZ cfgA 0 1) 1 cfgA.iterations = some 2 ∧
      getCell imgA 1 0 = some (255, 8, 0) ∧
      getCell imgA 0 1 = some (255, 8, 0)) := by
  constructor
  · intro cfg hW hH hesc
    obtain ⟨w, hw⟩ : ∃ w, cfg.image_width = w + 1 :=
      ⟨cfg.image_width - 1, by omega⟩
    obtain ⟨v, hv⟩ : ∃ v, cfg.image_height = v + 1 :=
      ⟨cfg.image_height - 1, by omega⟩
    have hpcv : pixelColorVar cfg (pixelZ cfg 0 0) none = none :=
      pixelColorVar_noescape none hesc
    have hg : getGreen (zeroImage cfg.image_height cfg.image_width) 0 0 =
        some 0 := getGreen_zeroImage (by omega) (by omega)
    have hwp : writePixel (zeroImage cfg.image_height cfg.image_width) 0 0
        none = Except.error nameErr := (writePixel_green_zero none hg).trans rfl
    have hrangeH : List.range cfg.image_height =
        0 :: List.map Nat.succ (List.range v) := by
      rw [hv, List.range_succ_eq_map]
    have hrangeW : List.range cfg.image_width =
        0 :: List.map Nat.succ (List.range w) := by
      rw [hw, List.range_succ_eq_map]
    have hrowErr : renderRowAux cfg 0
        (cfg.minx + ((0 : ℕ) : ℚ) * (cfg.maxx - cfg.minx) / (cfg.image_width : ℚ))
        (List.range cfg.image_height) none
        (zeroImage cfg.image_height cfg.image_width) = Except.error nameErr := by
      rw [hrangeH]
      exact renderRowAux_cons_err cfg 0 _ 0 _ none none _ nameErr hpcv hwp
    have hcolsErr : renderCols cfg (List.range cfg.image_width) none
        (zeroImage cfg.image_height cfg.image_width) = Except.error nameErr := by
      rw [hrangeW]
      exact renderCols_cons_err cfg 0 _ none _ nameErr hrowErr
    exact generate_err_of_renderCols cfg nameErr hcolsErr
  · refine ⟨by decide, by decide, by decide, by decide, by decide⟩

/-- Witness for C10 at the concrete configuration `cfgC3bad`, whose first
pixel never escapes. -/
theorem c10_witness :
    FractalJulia.generate cfgC3bad = Except.error nameErr :=
  c10_unbound_color_carry_over.1 cfgC3bad (by decide) (by decide) (by decide)
